import Mathlib

set_option maxRecDepth 100000

/-!
Verification of the camera capture / detection orchestration core of the
construction-site-monitoring repository.

The embedding follows the Python sources:
  * `src/reolink/CameraController.py`   (controller state machine, capture
    loop, frame alignment, bounded queue, persistence and alerting)
  * `src/reolink/utils/DetectionHandler.py` (detection boundary client,
    coordinate rescaling, box drawing)

Images are modelled as terms of a free algebra over the drawing operations:
a raw captured frame (with its pixel shape) and `cv2.rectangle` applications.
Python `float` arithmetic (CPython uses IEEE-754 binary64) is modelled
exactly with integer arithmetic: a float is a dyadic value `mant * 2 ^ exp`,
and each operation correctly rounds the exact result to 53 significant bits
(round-to-nearest, ties-to-even); the values arising here are all in the
normal range, far from overflow and subnormals.
-/

/-- Bounding box `[x1, y1, x2, y2]` as unpacked by the Python code
(`x1, y1, x2, y2 = box`). -/
structure Box4 where
  x1 : Int
  y1 : Int
  x2 : Int
  y2 : Int
deriving DecidableEq, Repr

/-- Image values: a raw captured frame (identified by an id, carrying its
width and height, i.e. `frame.shape[:2] = (h, w)`), or the result of a
`cv2.rectangle(frame, p1, p2, color, thickness)` call.  Drawing calls are
kept as constructors, so two images are equal exactly when the same drawing
operations were applied to the same raw frame. -/
inductive ImageVal where
  | frame (id : Nat) (w h : Nat)
  | rect (img : ImageVal) (p1 p2 : Int × Int) (color : Nat × Nat × Nat) (thickness : Nat)
deriving DecidableEq, Repr

/-- Width of an image (`frame.shape[1]`); drawing preserves the shape. -/
def ImageVal.width : ImageVal → Nat
  | .frame _ w _ => w
  | .rect img _ _ _ _ => img.width

/-- Height of an image (`frame.shape[0]`); drawing preserves the shape. -/
def ImageVal.height : ImageVal → Nat
  | .frame _ _ h => h
  | .rect img _ _ _ _ => img.height

/-- DetectionHandler.draw_bounding_boxes: for each box draw a green
`(0,255,0)` rectangle of thickness 2 from `(x1,y1)` to `(x2,y2)`. -/
def draw_bounding_boxes (frame : ImageVal) (boxes : List Box4) : ImageVal :=
  boxes.foldl (fun img b => .rect img (b.x1, b.y1) (b.x2, b.y2) (0, 255, 0) 2) frame

/-! Binary64 model.  A finite double is a dyadic number `mant * 2 ^ exp`
(not necessarily normalized).  `roundB64 a b` correctly rounds the exact
rational `a / b` (with `b > 0`). -/

/-- Structural (fuel-based) base-2 logarithm on naturals, so that concrete
values reduce in the kernel. -/
def log2fuel : Nat → Nat → Nat
  | 0, _ => 0
  | fuel + 1, n => if 2 ≤ n then log2fuel fuel (n / 2) + 1 else 0

/-- Base-2 logarithm: for `1 ≤ n`, `2 ^ nlog2 n ≤ n < 2 ^ (nlog2 n + 1)`. -/
def nlog2 (n : Nat) : Nat := log2fuel n n

/-- A finite binary64 value `mant * 2 ^ exp`. -/
structure F64 where
  mant : Int
  exp : Int
deriving DecidableEq, Repr

/-- Round the fraction `a / b` (`b > 0`) to the nearest integer, ties to
even: the IEEE-754 default rounding of a value expressed in units of the
target ulp. -/
def rnearest (a b : Int) : Int :=
  let f : Int := a.fdiv b
  let r : Int := a - f * b
  if 2 * r < b then f
  else if b < 2 * r then f + 1
  else if f % 2 = 0 then f else f + 1

/-- Decide `2 ^ k ≤ a / b` for `a, b > 0` without leaving the integers. -/
def le_pow2_div (k : Int) (a b : Int) : Bool :=
  if 0 ≤ k then decide (b * (2 : Int) ^ k.toNat ≤ a)
  else decide (b ≤ a * (2 : Int) ^ (-k).toNat)

/-- Correct rounding of the rational `a / b` (`b > 0`) to a binary64 value
(round-to-nearest, ties-to-even, 53-bit significand), for values in the
normal range.  This is the exact semantics of CPython float division of two
ints and of float conversion. -/
def roundB64 (a b : Int) : F64 :=
  if a = 0 then ⟨0, 0⟩
  else
    let na : Int := if a < 0 then -a else a
    let k : Int := (nlog2 na.toNat : Int) - (nlog2 b.toNat : Int)
    let e : Int := if le_pow2_div k na b then k else k - 1
    let j : Int := 52 - e
    let m : Int :=
      if 0 ≤ j then rnearest (na * (2 : Int) ^ j.toNat) b
      else rnearest na (b * (2 : Int) ^ (-j).toNat)
    if a < 0 then ⟨-m, e - 52⟩ else ⟨m, e - 52⟩

/-- Correct rounding of an exact dyadic value `m * 2 ^ e` to binary64. -/
def roundDyadic (m e : Int) : F64 :=
  if 0 ≤ e then roundB64 (m * (2 : Int) ^ e.toNat) 1
  else roundB64 m ((2 : Int) ^ (-e).toNat)

/-- Python float conversion of an int (exact below `2 ^ 53`). -/
def pyFloat (n : Int) : F64 := roundB64 n 1

/-- Python float multiplication: the exact product, correctly rounded. -/
def pyMul (x y : F64) : F64 := roundDyadic (x.mant * y.mant) (x.exp + y.exp)

/-- Python `int(f)` on a float: truncation toward zero. -/
def pyInt (x : F64) : Int :=
  if 0 ≤ x.exp then x.mant * (2 : Int) ^ x.exp.toNat
  else
    let d : Int := (2 : Int) ^ (-x.exp).toNat
    if 0 ≤ x.mant then x.mant.fdiv d else -((-x.mant).fdiv d)

/-- DetectionHandler.scale_coordinates: `orig_h, orig_w = frame.shape[:2]`,
`scale_w, scale_h = orig_w / input_size[0], orig_h / input_size[1]` (float
division of ints), then each coordinate is rescaled by
`int(coord * scale)` in float arithmetic.  The `try/except` wrapper only
fires on malformed boxes, which the `Box4` type excludes. -/
def scale_coordinates (frame : ImageVal) (boxes : List Box4)
    (input_size : Int × Int := (640, 640)) : List Box4 :=
  let scale_w : F64 := roundB64 (frame.width : Int) input_size.1
  let scale_h : F64 := roundB64 (frame.height : Int) input_size.2
  boxes.map fun b =>
    { x1 := pyInt (pyMul (pyFloat b.x1) scale_w)
      y1 := pyInt (pyMul (pyFloat b.y1) scale_h)
      x2 := pyInt (pyMul (pyFloat b.x2) scale_w)
      y2 := pyInt (pyMul (pyFloat b.y2) scale_h) }

/-! Detection boundary client (DetectionHandler). -/

/-- Outcome of the `requests.post` call to the detector:  a 2xx response
carrying the parsed JSON field `result_boxes` (absent when the key is
missing), a non-2xx status (`raise_for_status` raises), or a transport /
encoding failure (a raised exception). -/
inductive DetectorResponse where
  | success (result_boxes : Option (List Box4))
  | httpError (status : Nat)
  | transportError
deriving DecidableEq, Repr

/-- DetectionHandler.send_image_for_detection: on success return
`response.json().get('result_boxes', [])`; every raised exception
(`raise_for_status` on a non-2xx status, or any transport error) is caught,
logged, and turned into the empty box list. -/
def send_image_for_detection (resp : DetectorResponse) : List Box4 :=
  match resp with
  | .success bs => bs.getD []
  | .httpError _ => []
  | .transportError => []

/-- DetectionHandler.process_frame: obtain boxes from the boundary and, when
non-empty, rescale them to the frame's resolution. -/
def process_frame (frame : ImageVal) (resp : DetectorResponse) :
    ImageVal × List Box4 :=
  let boxes := send_image_for_detection resp
  let boxes2 := if boxes.isEmpty then boxes else scale_coordinates frame boxes
  (frame, boxes2)

/-! Controller state machine (CameraController lifecycle). -/

/-- Lifecycle of a Python `threading.Thread` handle: `Thread.start` raises
`RuntimeError` unless the thread is `unstarted`; `Thread.join` raises
`RuntimeError` on an `unstarted` thread and otherwise blocks until the
thread finishes (here both workers exit once `stop_event` is set, so a join
performed by `stop_capture` is modelled as succeeding). -/
inductive ThreadStatus where
  | unstarted
  | started
  | joined
deriving DecidableEq, Repr

/-- Shared controller state, together with the two thread handles:
`detection_thread` is created once in `__init__`; `thread` (the capture
worker) is the attribute only ever assigned inside `start_capture`, so it
is `none` on a freshly constructed controller. -/
structure ControllerState where
  capture_images : Bool
  save_interval : Int
  armed : Bool
  stop_event : Bool
  detection_thread : ThreadStatus
  thread : Option ThreadStatus
deriving DecidableEq, Repr

/-- Python exceptions that the lifecycle methods can raise. -/
inductive PyError where
  | attributeError
  | threadStartedTwice
  | joinBeforeStart
deriving DecidableEq, Repr

/-- Result of a lifecycle call: normal return, the logged
already-running / not-running no-ops, or a propagated exception. -/
inductive CtrlOutcome where
  | ok
  | alreadyRunning
  | notRunning
  | raised (e : PyError)
deriving DecidableEq, Repr

/-- CameraController.__init__ (`initial_interval` defaults to 300):
`capture_images = True`, `stop_event` clear, `armed = False`, the detection
thread constructed but not started, and no capture-thread attribute. -/
def init_state (initial_interval : Int := 300) : ControllerState :=
  { capture_images := true
    save_interval := initial_interval
    armed := false
    stop_event := false
    detection_thread := .unstarted
    thread := none }

/-- CameraController.start_capture: under the state lock, return (logging
"already running") when `capture_images` is set; otherwise set
`capture_images`, clear `stop_event`, start the detection thread handle
from `__init__` (raising `RuntimeError` if it was ever started before),
then create and start a fresh capture thread. -/
def start_capture (s : ControllerState) : ControllerState × CtrlOutcome :=
  if s.capture_images then (s, .alreadyRunning)
  else
    let s1 := { s with capture_images := true, stop_event := false }
    match s1.detection_thread with
    | .unstarted =>
        ({ s1 with detection_thread := .started, thread := some .started }, .ok)
    | _ => (s1, .raised .threadStartedTwice)

/-- CameraController.stop_capture: under the state lock, return (logging
"not running") when `capture_images` is clear; otherwise clear
`capture_images`, set `stop_event`, then join the capture thread (an
`AttributeError` if `self.thread` was never assigned) and the detection
thread (a `RuntimeError` if it was never started).  Both loops exit once
`stop_event` is set, so a join of a started thread returns. -/
def stop_capture (s : ControllerState) : ControllerState × CtrlOutcome :=
  if !s.capture_images then (s, .notRunning)
  else
    let s1 := { s with capture_images := false, stop_event := true }
    match s1.thread with
    | none => (s1, .raised .attributeError)
    | some _ =>
      let s2 := { s1 with thread := some .joined }
      match s2.detection_thread with
      | .unstarted => (s2, .raised .joinBeforeStart)
      | _ => ({ s2 with detection_thread := .joined }, .ok)

/-- CameraController.is_capturing: returns `self.capture_images`. -/
def is_capturing (s : ControllerState) : Bool := s.capture_images

/-- CameraController.arm_system: `self.armed = True` (no lock taken). -/
def arm_system (s : ControllerState) : ControllerState := { s with armed := true }

/-- CameraController.disarm_system: `self.armed = False` (no lock taken). -/
def disarm_system (s : ControllerState) : ControllerState := { s with armed := false }

/-- Result of CameraController.set_save_interval: the rejection branch logs
"Invalid save interval. It must be a positive integer." and returns with
the state unchanged; the other branch stores the new interval. -/
inductive SetIntervalOutcome where
  | invalidArgument
  | updated
deriving DecidableEq, Repr

/-- CameraController.set_save_interval: reject `interval < 1` leaving the
stored interval unchanged; otherwise update `save_interval` under the
state lock. -/
def set_save_interval (s : ControllerState) (interval : Int) :
    ControllerState × SetIntervalOutcome :=
  if interval < 1 then (s, .invalidArgument)
  else ({ s with save_interval := interval }, .updated)

/-- Capture-loop tick guard in camera_capture:
`current_time - last_capture_time >= self.save_interval`, reading the
shared interval afresh on each tick. -/
def capture_due (s : ControllerState) (current_time last_capture_time : Int) : Bool :=
  decide (s.save_interval ≤ current_time - last_capture_time)

/-! Lock-discipline instrumentation: which accesses to the shared capture
state (capturing flag, armed flag, interval) each public operation makes,
and whether the access happens inside a `with self.state_lock` block.
Transcribed from the bodies of the six public operations. -/

/-- The three shared fields of the capture state. -/
inductive StateField where
  | capturingField
  | armedField
  | intervalField
deriving DecidableEq, Repr

/-- One attribute access: which field, read or write, and whether the
state lock is held at that program point. -/
structure FieldAccess where
  field : StateField
  isWrite : Bool
  underLock : Bool
deriving DecidableEq, Repr

/-- start_capture reads `capture_images` and, when proceeding, writes it;
both accesses are inside the `with self.state_lock` block. -/
def start_capture_accesses (already_running : Bool) : List FieldAccess :=
  if already_running then [⟨.capturingField, false, true⟩]
  else [⟨.capturingField, false, true⟩, ⟨.capturingField, true, true⟩]

/-- stop_capture reads `capture_images` and, when proceeding, writes it;
both accesses are inside the `with self.state_lock` block. -/
def stop_capture_accesses (not_running : Bool) : List FieldAccess :=
  if not_running then [⟨.capturingField, false, true⟩]
  else [⟨.capturingField, false, true⟩, ⟨.capturingField, true, true⟩]

/-- arm_system writes `self.armed` with no lock acquisition in its body. -/
def arm_system_accesses : List FieldAccess := [⟨.armedField, true, false⟩]

/-- disarm_system writes `self.armed` with no lock acquisition in its body. -/
def disarm_system_accesses : List FieldAccess := [⟨.armedField, true, false⟩]

/-- is_capturing returns `self.capture_images` without taking the lock. -/
def is_capturing_accesses : List FieldAccess := [⟨.capturingField, false, false⟩]

/-- set_save_interval validates its argument without touching shared state
and performs the `save_interval` write inside `with self.state_lock`. -/
def set_save_interval_accesses (interval : Int) : List FieldAccess :=
  if interval < 1 then [] else [⟨.intervalField, true, true⟩]

/-! Bounded detection dispatcher queue (`queue.Queue(maxsize=10)`). -/

/-- Result of `Queue.put`: the item is appended when the queue is below
capacity; on a full queue a blocking put parks the caller until a consumer
frees a slot, and `put_nowait` raises `queue.Full`. -/
inductive PutOutcome (α : Type) where
  | enqueued (q : List α)
  | blocked
  | raisedFull
deriving DecidableEq, Repr

/-- CPython `queue.Queue.put` on a queue modelled as the list of its
items. -/
def queue_put {α : Type} (maxsize : Nat) (block : Bool) (q : List α) (x : α) :
    PutOutcome α :=
  if q.length < maxsize then .enqueued (q ++ [x])
  else if block then .blocked else .raisedFull

/-- The controller's `self.frame_queue.put((camera_index, frame))`: the
queue is constructed with `maxsize=10` and `put` is called with its default
`block=True`. -/
def frame_queue_put (q : List (Nat × ImageVal)) (x : Nat × ImageVal) :
    PutOutcome (Nat × ImageVal) :=
  queue_put 10 true q x

/-! Frame aligner (camera_capture buffering + align_and_process_frames). -/

/-- One buffered capture: its `time.time()` timestamp and the frame. -/
structure FrameData where
  timestamp : Int
  image : ImageVal
deriving DecidableEq, Repr

/-- Python `min(xs)` / `min(xs, key=key)`: the first element attaining the
minimal key; `none` models the `ValueError` raised on an empty sequence. -/
def pyMinBy {α β : Type} [LinearOrder β] (key : α → β) : List α → Option α
  | [] => none
  | x :: xs => some (xs.foldl (fun acc y => if key y < key acc then y else acc) x)

/-- Line 99: `min([frames[0][0] for frames in self.frame_buffer.values() if
frames])` — the earliest first-buffered timestamp among non-empty buffers
(`none`: all buffers empty, a ValueError caught by the handler). -/
def align_min_time (buffers : List (List FrameData)) : Option Int :=
  pyMinBy id (buffers.filterMap fun b => b.head?.map FrameData.timestamp)

/-- Line 102: `min(self.frame_buffer[index], key=lambda x: abs(x[0] -
min_time))`. -/
def select_closest (min_time : Int) (b : List FrameData) : Option FrameData :=
  pyMinBy (fun fd => (fd.timestamp - min_time).natAbs) b

/-- Lines 101-104: per camera (in index order) select the closest frame and
clear that camera's buffer.  Returns the selected frames (positionally, one
per camera) and the resulting buffers; `none` models the ValueError on an
empty buffer, in which case the buffers cleared before the raise stay
cleared and the rest are untouched. -/
def align_loop (min_time : Int) :
    List (List FrameData) → Option (List ImageVal) × List (List FrameData)
  | [] => (some [], [])
  | b :: bs =>
    match select_closest min_time b with
    | none => (none, b :: bs)
    | some fd =>
      let rest := align_loop min_time bs
      (rest.1.map fun sel => fd.image :: sel, [] :: rest.2)

/-- Lines 76-83 of camera_capture, after the per-camera reads:
`len(min(self.frame_buffer.values(), key=len)) > 0`, i.e. the shortest
buffer is non-empty.  `none` models the ValueError of `min` over an empty
collection (a controller configured with no cameras), which is uncaught in
the capture loop. -/
def tick_aligns (buffers : List (List FrameData)) : Option Bool :=
  (pyMinBy (fun b : List FrameData => b.length) buffers).map fun shortest =>
    decide (0 < shortest.length)

/-- Enqueue loop of align_and_process_frames (lines 105-106): each aligned
component is `put` into the bounded queue with a blocking put; when the
queue fills, the capture loop parks inside `put` (flag `true`). -/
def enqueue_loop : List (Nat × ImageVal) → List (Nat × ImageVal) →
    List (Nat × ImageVal) × Bool
  | q, [] => (q, false)
  | q, x :: xs =>
    match frame_queue_put q x with
    | .enqueued q2 => enqueue_loop q2 xs
    | _ => (q, true)

/-- CameraController.align_and_process_frames: compute `min_time`, select
and clear per camera, then enqueue the `(camera_index, frame)` components.
Returns the new buffers, the new queue contents, and whether the capture
loop blocked on a full queue.  Exceptions inside the `try` are caught and
logged. -/
def align_and_process_frames (buffers : List (List FrameData))
    (q : List (Nat × ImageVal)) :
    List (List FrameData) × List (Nat × ImageVal) × Bool :=
  match align_min_time buffers with
  | none => (buffers, q, false)
  | some mt =>
    match align_loop mt buffers with
    | (none, bufs2) => (bufs2, q, false)
    | (some sel, bufs2) =>
      let r := enqueue_loop q sel.enum
      (bufs2, r.1, r.2)

/-! Persistence and alert sink (save_image / write_detection_record /
send_detection_alert), modelled as the list of filesystem and alert
actions the code performs.  I/O primitives themselves (directory creation,
`cv2.imwrite`, the csv append, the bot call) are recorded as events; the
spec's PersistenceFailed path (an I/O primitive itself raising) is outside
this model. -/

/-- Filesystem / alert actions of the sink. -/
inductive SinkEvent where
  | makedirs (path : String)
  | imwrite (path : String) (img : ImageVal)
  | csvAppend (path : String) (filename : String) (boxes : List Box4)
  | alertTask (message : String) (img : ImageVal)
  | logError (message : String)
deriving DecidableEq, Repr

/-- The hard-coded `self.save_path`. -/
def save_path : String := "/media/david/DAVID"

/-- CameraController.send_detection_alert: draw the boxes on the frame and
schedule `bot.send_alert` on the bot's event loop when it is open;
otherwise log the failure. -/
def send_detection_alert (loop_closed : Bool) (camera_index : Nat)
    (frame : ImageVal) (boxes : List Box4) : List SinkEvent :=
  let alert_message := "Detected an object in camera " ++ toString camera_index
  let bbox_frame := draw_bounding_boxes frame boxes
  if !loop_closed then [SinkEvent.alertTask alert_message bbox_frame]
  else [SinkEvent.logError "Attempted to send alert, but the event loop is closed."]

/-- CameraController.write_detection_record: append the row
`[filename, boxes]` to `detections_<index>.csv` (mode 'a'). -/
def write_detection_record (camera_index : Nat) (filename : String)
    (boxes : List Box4) : List SinkEvent :=
  [SinkEvent.csvAppend (save_path ++ "/detections_" ++ toString camera_index ++ ".csv")
    filename boxes]

/-- CameraController.save_image: ensure `cam_<index>` exists, write the
frame under `<int(time.time())>.jpg` (`now` is that second-resolution Unix
timestamp), append the detection record, and — when `boxes` is non-empty
and the system is armed — invoke send_detection_alert. -/
def save_image (armed dir_exists loop_closed : Bool) (camera_index : Nat)
    (now : Nat) (frame : ImageVal) (boxes : List Box4) : List SinkEvent :=
  let camera_path := save_path ++ "/cam_" ++ toString camera_index
  let filename := toString now ++ ".jpg"
  let file_path := camera_path ++ "/" ++ filename
  (if dir_exists then [] else [SinkEvent.makedirs camera_path])
    ++ [SinkEvent.imwrite file_path frame]
    ++ write_detection_record camera_index filename boxes
    ++ (if !boxes.isEmpty && armed then
          send_detection_alert loop_closed camera_index frame boxes
        else [])

/-- Events emitted by send_detection_alert, i.e. the alert call made from
save_image: either the scheduled bot task or, with a closed bot event
loop, the logged delivery failure. -/
def isAlertPath : SinkEvent → Bool
  | .alertTask _ _ => true
  | .logError _ => true
  | _ => false

/-- Images written to disk by a list of sink events. -/
def writtenImages (events : List SinkEvent) : List ImageVal :=
  events.filterMap fun e =>
    match e with
    | .imwrite _ img => some img
    | _ => none

/-- CameraController.run_detection, unrolled over a finite script: each
entry is either a dequeued `(camera_index, frame)` item together with the
detector's response for it, or `none` for a `queue.Empty` timeout (the
`continue` branch).  Every exception inside the loop body is caught and
logged, so the loop always proceeds to the next entry. -/
def run_detection_events (armed dir_exists loop_closed : Bool) (now : Nat) :
    List (Option (Nat × ImageVal × DetectorResponse)) → List SinkEvent
  | [] => []
  | none :: rest => run_detection_events armed dir_exists loop_closed now rest
  | some (ci, frame, resp) :: rest =>
    let pr := process_frame frame resp
    save_image armed dir_exists loop_closed ci now pr.1 pr.2
      ++ run_detection_events armed dir_exists loop_closed now rest

/-- A concrete two-camera buffer state used to exercise the alignment
theorem: camera 0 buffered one frame at t=100, camera 1 buffered frames at
t=95 and t=101. -/
def sample_buffers : List (List FrameData) :=
  [[⟨100, ImageVal.frame 0 640 480⟩],
   [⟨95, ImageVal.frame 1 640 480⟩, ⟨101, ImageVal.frame 2 640 480⟩]]

/-! Theorems. -/

/-- The fold inside pyMinBy returns the seed or a list element. -/
theorem pyMinBy_foldl_mem {α β : Type} [LinearOrder β] (key : α → β) :
    ∀ (xs : List α) (x : α),
      xs.foldl (fun acc y => if key y < key acc then y else acc) x ∈ x :: xs := by
  intro xs
  induction xs with
  | nil => intro x; simp
  | cons y ys ih =>
    intro x
    simp only [List.foldl_cons]
    have h := ih (if key y < key x then y else x)
    rcases List.mem_cons.mp h with h1 | h1
    · rw [h1]
      by_cases hc : key y < key x <;> simp [hc]
    · exact List.mem_cons_of_mem _ (List.mem_cons_of_mem _ h1)

/-- The fold inside pyMinBy attains a minimal key over seed and list. -/
theorem pyMinBy_foldl_le {α β : Type} [LinearOrder β] (key : α → β) :
    ∀ (xs : List α) (x z : α), z ∈ x :: xs →
      key (xs.foldl (fun acc y => if key y < key acc then y else acc) x) ≤ key z := by
  intro xs
  induction xs with
  | nil =>
    intro x z hz
    simp only [List.mem_singleton] at hz
    subst hz
    simp
  | cons y ys ih =>
    intro x z hz
    simp only [List.foldl_cons]
    have hseed := ih (if key y < key x then y else x)
      (if key y < key x then y else x) (List.mem_cons_self _ _)
    rcases List.mem_cons.mp hz with h1 | h1
    · subst h1
      by_cases hc : key y < key z
      · exact le_trans (by simpa [hc] using hseed) (le_of_lt hc)
      · simpa [hc] using hseed
    · rcases List.mem_cons.mp h1 with h2 | h2
      · subst h2
        by_cases hc : key z < key x
        · simpa [hc] using hseed
        · exact le_trans (by simpa [hc] using hseed) (not_lt.mp hc)
      · exact ih (if key y < key x then y else x) z (List.mem_cons_of_mem _ h2)

/-- Python `min` on a non-empty list: the result is an element attaining
the minimal key. -/
theorem pyMinBy_spec {α β : Type} [LinearOrder β] (key : α → β) (l : List α)
    (hl : l ≠ []) :
    ∃ r, pyMinBy key l = some r ∧ r ∈ l ∧ ∀ z ∈ l, key r ≤ key z := by
  cases l with
  | nil => exact absurd rfl hl
  | cons x xs =>
    exact ⟨_, rfl, pyMinBy_foldl_mem key xs x, fun z hz => pyMinBy_foldl_le key xs x z hz⟩

/-- Selection loop of align_and_process_frames: when every buffer is
non-empty it selects, per camera, a buffered frame minimizing the distance
to min_time, clears every buffer and yields exactly one frame per
camera. -/
theorem align_loop_spec (mt : Int) :
    ∀ bs : List (List FrameData), (∀ b ∈ bs, b ≠ []) →
      ∃ sel : List ImageVal,
        align_loop mt bs = (some sel, bs.map fun _ => [])
        ∧ sel.length = bs.length
        ∧ ∀ (i : Nat) (b : List FrameData), bs[i]? = some b →
            ∃ fd ∈ b, sel[i]? = some fd.image
              ∧ ∀ fd2 ∈ b, (fd.timestamp - mt).natAbs ≤ (fd2.timestamp - mt).natAbs := by
  intro bs
  induction bs with
  | nil =>
    intro _
    refine ⟨[], rfl, rfl, ?_⟩
    intro i b hb
    simp at hb
  | cons b bs ih =>
    intro hall
    have hb : b ≠ [] := hall b (List.mem_cons_self _ _)
    obtain ⟨fb, btl, rfl⟩ := List.exists_cons_of_ne_nil hb
    obtain ⟨fd, hfd, hfdmem, hfdle⟩ :=
      pyMinBy_spec (fun fd => (fd.timestamp - mt).natAbs) (fb :: btl) (by simp)
    obtain ⟨sel, hsel, hlen, hidx⟩ := ih fun b2 hb2 => hall b2 (List.mem_cons_of_mem _ hb2)
    refine ⟨fd.image :: sel, ?_, by simp [hlen], ?_⟩
    · simp [align_loop, select_closest, hfd, hsel]
    · intro i c hc
      cases i with
      | zero =>
        simp only [List.getElem?_cons_zero, Option.some.injEq] at hc
        subst hc
        exact ⟨fd, hfdmem, by simp, hfdle⟩
      | succ n =>
        simp only [List.getElem?_cons_succ] at hc ⊢
        exact hidx n c hc

/-- C5: on a capture tick (of a controller with at least one camera), an
aligned set is emitted iff every camera's buffer is non-empty; when it is,
min_time is the earliest first-buffered timestamp across cameras, each
camera's selected frame minimizes |t - min_time| over that camera's
buffer, all buffers are cleared afterwards, and the emitted set carries
exactly one frame per camera — no partial set. -/
theorem C5_alignment (buffers : List (List FrameData)) (hne : buffers ≠ []) :
    (tick_aligns buffers = some true ↔ ∀ b ∈ buffers, b ≠ [])
    ∧ ((∀ b ∈ buffers, b ≠ []) →
        ∃ mt sel,
          align_min_time buffers = some mt
          ∧ (∀ b ∈ buffers, ∀ hd ∈ b.head?, mt ≤ hd.timestamp)
          ∧ (∃ b ∈ buffers, ∃ hd ∈ b.head?, hd.timestamp = mt)
          ∧ align_loop mt buffers = (some sel, buffers.map fun _ => [])
          ∧ sel.length = buffers.length
          ∧ ∀ (i : Nat) (b : List FrameData), buffers[i]? = some b →
              ∃ fd ∈ b, sel[i]? = some fd.image
                ∧ ∀ fd2 ∈ b, (fd.timestamp - mt).natAbs ≤ (fd2.timestamp - mt).natAbs) := by
  constructor
  · obtain ⟨sh, hsh, hshmem, hshle⟩ :=
      pyMinBy_spec (fun b : List FrameData => b.length) buffers hne
    constructor
    · intro ht b hb
      rw [tick_aligns, hsh] at ht
      simp only [Option.map_some', Option.some.injEq, decide_eq_true_eq] at ht
      have hle := hshle b hb
      intro hnil
      subst hnil
      simp only [List.length_nil, Nat.le_zero] at hle
      omega
    · intro hall
      rw [tick_aligns, hsh]
      have : 0 < sh.length := List.length_pos.mpr (hall sh hshmem)
      simp [this]
  · intro hall
    have hheadmem : ∀ b ∈ buffers, ∀ hd ∈ b.head?, hd.timestamp ∈
        buffers.filterMap fun b => b.head?.map FrameData.timestamp := by
      intro b hb hd hhd
      exact List.mem_filterMap.mpr ⟨b, hb, by rw [Option.mem_def] at hhd; simp [hhd]⟩
    obtain ⟨b0, bs0, rfl⟩ := List.exists_cons_of_ne_nil hne
    obtain ⟨f0, bt0, rfl⟩ := List.exists_cons_of_ne_nil (hall _ (List.mem_cons_self _ _))
    have hheads : (((f0 :: bt0) :: bs0).filterMap
        fun b => b.head?.map FrameData.timestamp) ≠ [] :=
      List.ne_nil_of_mem (hheadmem _ (List.mem_cons_self _ _) f0 (by simp))
    obtain ⟨mt, hmt, hmtmem, hmtle⟩ := pyMinBy_spec id _ hheads
    obtain ⟨sel, hsel, hlen, hidx⟩ := align_loop_spec mt _ hall
    refine ⟨mt, sel, hmt, ?_, ?_, hsel, hlen, hidx⟩
    · intro b hb hd hhd
      exact hmtle _ (hheadmem b hb hd hhd)
    · obtain ⟨b, hb, hfb⟩ := List.mem_filterMap.mp hmtmem
      obtain ⟨hd, hhd, hts⟩ := Option.map_eq_some'.mp hfb
      exact ⟨b, hb, hd, by rw [Option.mem_def]; exact hhd, hts⟩

/-- Witness for `C5_alignment` on `sample_buffers`. -/
theorem C5_alignment_witness :
    ∃ mt sel,
      align_min_time sample_buffers = some mt
      ∧ (∀ b ∈ sample_buffers, ∀ hd ∈ b.head?, mt ≤ hd.timestamp)
      ∧ (∃ b ∈ sample_buffers, ∃ hd ∈ b.head?, hd.timestamp = mt)
      ∧ align_loop mt sample_buffers = (some sel, sample_buffers.map fun _ => [])
      ∧ sel.length = sample_buffers.length
      ∧ ∀ (i : Nat) (b : List FrameData), sample_buffers[i]? = some b →
          ∃ fd ∈ b, sel[i]? = some fd.image
            ∧ ∀ fd2 ∈ b, (fd.timestamp - mt).natAbs ≤ (fd2.timestamp - mt).natAbs :=
  (C5_alignment sample_buffers (by decide)).2 (by decide)

/-- C1 (code bug): the spec requires every start() issued after a returned
stop() to spawn a fresh detection worker and a fresh capture worker and to
complete without error.  The code reuses the single detection thread handle
constructed in `__init__`.  Tracing stop(); start(); stop(); start() from a
fresh controller: the first stop() raises AttributeError (`self.thread` was
never assigned), the following start() spawns both workers, the second
stop() is the first stop() call that returns normally — and the start()
after it raises RuntimeError from `Thread.start` on the already-joined
detection handle, spawning no fresh worker and leaving `capturing = true`
with both workers joined. -/
theorem C1_start_after_returned_stop_raises :
    ((stop_capture (init_state 300)).2 = CtrlOutcome.raised PyError.attributeError)
    ∧ ((start_capture (stop_capture (init_state 300)).1).2 = CtrlOutcome.ok)
    ∧ ((stop_capture (start_capture (stop_capture (init_state 300)).1).1).2 = CtrlOutcome.ok)
    ∧ ((start_capture (stop_capture (start_capture
          (stop_capture (init_state 300)).1).1).1).2
        = CtrlOutcome.raised PyError.threadStartedTwice)
    ∧ ((start_capture (stop_capture (start_capture
          (stop_capture (init_state 300)).1).1).1).1.thread
        = some ThreadStatus.joined)
    ∧ ((start_capture (stop_capture (start_capture
          (stop_capture (init_state 300)).1).1).1).1.capture_images = true) := by
  decide

/-- C2 counterexample: enqueuing into the full dispatcher queue (10 items
already buffered) does not discard the newly captured frame — the
`Queue.put` call, made with its default `block=True`, blocks the capture
loop. -/
theorem C2_full_queue_put_blocks :
    frame_queue_put
        (List.replicate 10 (0, ImageVal.frame 0 640 640))
        (1, ImageVal.frame 1 640 640)
      = PutOutcome.blocked := by
  decide

/-- C2 amended: the dispatcher queue is bounded at capacity 10 and the
queue length never exceeds 10, but the put is blocking: below capacity the
item is appended, and on a full queue the capture loop blocks until a slot
frees instead of discarding the frame. -/
theorem C2_blocking_put_bounded (q : List (Nat × ImageVal)) (x : Nat × ImageVal)
    (hq : q.length ≤ 10) :
    (q.length < 10 →
      frame_queue_put q x = PutOutcome.enqueued (q ++ [x]) ∧ (q ++ [x]).length ≤ 10)
    ∧ (q.length = 10 → frame_queue_put q x = PutOutcome.blocked) := by
  constructor
  · intro h
    refine ⟨by simp [frame_queue_put, queue_put, h], ?_⟩
    simp only [List.length_append, List.length_cons, List.length_nil]
    omega
  · intro h
    simp [frame_queue_put, queue_put, h]

/-- Witness for `C2_blocking_put_bounded` at an empty and at a full
queue. -/
theorem C2_blocking_put_bounded_witness :
    (frame_queue_put [] (0, ImageVal.frame 0 640 640)
        = PutOutcome.enqueued ([] ++ [(0, ImageVal.frame 0 640 640)])
      ∧ ([] ++ [(0, ImageVal.frame 0 640 640)]).length ≤ 10)
    ∧ frame_queue_put
        (List.replicate 10 (0, ImageVal.frame 0 640 640))
        (1, ImageVal.frame 1 640 640)
      = PutOutcome.blocked :=
  ⟨(C2_blocking_put_bounded [] (0, ImageVal.frame 0 640 640) (by decide)).1 (by decide),
   (C2_blocking_put_bounded (List.replicate 10 (0, ImageVal.frame 0 640 640))
      (1, ImageVal.frame 1 640 640) (by decide)).2 (by decide)⟩

/-- C3 counterexample: the claim says workers can only be spawned by a
start() that follows a returned stop().  From a fresh controller the very
first stop() raises AttributeError — it never returns — yet, because it
already set `capturing = false` before raising, the next start() proceeds
and spawns both workers. -/
theorem C3_workers_spawned_after_raising_stop :
    ((stop_capture (init_state 300)).2 = CtrlOutcome.raised PyError.attributeError)
    ∧ ((start_capture (stop_capture (init_state 300)).1).2 = CtrlOutcome.ok)
    ∧ ((start_capture (stop_capture (init_state 300)).1).1.thread
        = some ThreadStatus.started)
    ∧ ((start_capture (stop_capture (init_state 300)).1).1.detection_thread
        = ThreadStatus.started) := by
  decide

/-- C3 amended: immediately after construction the capturing flag is
already true and isCapturing() returns true although no worker threads
exist; any start() seeing `capturing = true` — in particular the first
one — is a no-op reporting "already running" that spawns nothing; arm,
disarm and setInterval preserve the flag, so workers can only be spawned
by a start() that follows a stop() call — but that stop() need not have
returned: the first one raises AttributeError after clearing the flag. -/
theorem C3_initial_capturing_and_spawn_guard :
    is_capturing (init_state 300) = true
    ∧ (init_state 300).thread = none
    ∧ (init_state 300).detection_thread = ThreadStatus.unstarted
    ∧ start_capture (init_state 300) = (init_state 300, CtrlOutcome.alreadyRunning)
    ∧ (∀ s : ControllerState, s.capture_images = true →
        start_capture s = (s, CtrlOutcome.alreadyRunning))
    ∧ (∀ s : ControllerState, s.capture_images = true →
        (arm_system s).capture_images = true
        ∧ (disarm_system s).capture_images = true
        ∧ ∀ i : Int, ((set_save_interval s i).1).capture_images = true)
    ∧ (stop_capture (init_state 300)).1.capture_images = false := by
  refine ⟨rfl, rfl, rfl, by decide, ?_, ?_, by decide⟩
  · intro s h
    simp [start_capture, h]
  · intro s h
    refine ⟨by simp [arm_system, h], by simp [disarm_system, h], ?_⟩
    intro i
    by_cases hi : i < 1 <;> simp [set_save_interval, hi, h]

/-- Witness for `C3_initial_capturing_and_spawn_guard`. -/
theorem C3_spawn_guard_witness :
    start_capture (init_state 42) = (init_state 42, CtrlOutcome.alreadyRunning)
    ∧ (arm_system (init_state 42)).capture_images = true := by
  obtain ⟨-, -, -, -, h5, h6, -⟩ := C3_initial_capturing_and_spawn_guard
  exact ⟨h5 (init_state 42) rfl, (h6 (init_state 42) rfl).1⟩

/-- C4 counterexample: with a non-empty boxes list, the image handed to
`cv2.imwrite` is the raw frame, not the frame with the boxes drawn —
`draw_bounding_boxes` runs only on the alert path, after the write. -/
theorem C4_written_image_not_annotated :
    writtenImages
        (save_image true true false 3 1700000000 (ImageVal.frame 7 640 640)
          [⟨1, 2, 3, 4⟩])
      = [ImageVal.frame 7 640 640]
    ∧ draw_bounding_boxes (ImageVal.frame 7 640 640) [⟨1, 2, 3, 4⟩]
        ∉ writtenImages
            (save_image true true false 3 1700000000 (ImageVal.frame 7 640 640)
              [⟨1, 2, 3, 4⟩]) := by
  decide

/-- C4 amended: save writes exactly one image — the raw, unannotated
frame — into the per-camera directory under the filename
`<second-resolution Unix timestamp>.jpg`, and appends the record
(filename, boxes) to that camera's detections log; the annotated frame
(with boxes drawn) is produced only for the alert dispatched when the
system is armed and boxes are non-empty. -/
theorem C4_save_raw_frame_and_append_record (armed dir_exists loop_closed : Bool)
    (ci now : Nat) (frame : ImageVal) (boxes : List Box4) (b : Box4) (bs : List Box4) :
    writtenImages (save_image armed dir_exists loop_closed ci now frame boxes) = [frame]
    ∧ SinkEvent.imwrite
        (save_path ++ "/cam_" ++ toString ci ++ "/" ++ (toString now ++ ".jpg")) frame
        ∈ save_image armed dir_exists loop_closed ci now frame boxes
    ∧ SinkEvent.csvAppend (save_path ++ "/detections_" ++ toString ci ++ ".csv")
        (toString now ++ ".jpg") boxes
        ∈ save_image armed dir_exists loop_closed ci now frame boxes
    ∧ SinkEvent.alertTask ("Detected an object in camera " ++ toString ci)
        (draw_bounding_boxes frame (b :: bs))
        ∈ save_image true dir_exists false ci now frame (b :: bs) := by
  refine ⟨?_, ?_, ?_, ?_⟩ <;>
    cases armed <;> cases dir_exists <;> cases loop_closed <;> cases boxes <;>
      simp [save_image, send_detection_alert, write_detection_record, writtenImages,
        isAlertPath]

/-- Fuel-based log2 satisfies the defining bounds once the fuel covers the
argument. -/
theorem log2fuel_spec :
    ∀ (fuel n : Nat), 1 ≤ n → n ≤ fuel →
      2 ^ log2fuel fuel n ≤ n ∧ n < 2 ^ (log2fuel fuel n + 1) := by
  intro fuel
  induction fuel with
  | zero => intro n h1 h2; omega
  | succ fuel ih =>
    intro n h1 h2
    by_cases hn : 2 ≤ n
    · have hrec := ih (n / 2) (by omega) (by omega)
      have hl : log2fuel (fuel + 1) n = log2fuel fuel (n / 2) + 1 := by
        simp [log2fuel, hn]
      rw [hl]
      have h2A : (2 : Nat) ^ (log2fuel fuel (n / 2) + 1)
          = 2 ^ log2fuel fuel (n / 2) * 2 := pow_succ 2 _
      have h4A : (2 : Nat) ^ (log2fuel fuel (n / 2) + 1 + 1)
          = 2 ^ log2fuel fuel (n / 2) * 2 * 2 := by
        rw [pow_succ, pow_succ]
      omega
    · have hn1 : n = 1 := by omega
      subst hn1
      have hl : log2fuel (fuel + 1) 1 = 0 := by
        simp [log2fuel]
      rw [hl]
      omega

/-- Two-sided characterization of `nlog2`. -/
theorem nlog2_spec (n : Nat) (h : 1 ≤ n) :
    2 ^ nlog2 n ≤ n ∧ n < 2 ^ (nlog2 n + 1) :=
  log2fuel_spec n n h le_rfl

/-- Half-even rounding is exact on integral fractions. -/
theorem rnearest_exact (q b : Int) (hb : 0 < b) : rnearest (b * q) b = q := by
  have hf : (b * q).fdiv b = q := by
    rw [mul_comm]
    exact Int.mul_fdiv_cancel q (by omega)
  simp only [rnearest, hf]
  have hr : b * q - q * b = 0 := by ring
  rw [hr]
  have h2 : (2 : Int) * 0 < b := by omega
  rw [if_pos h2]

/-- Exactness of `roundB64` on integral fractions below `2 ^ 53`: rounding
`(b * n) / b` returns a representation of the integer `n` itself, as a
mantissa `n * 2 ^ j` with exponent `-j` for some `j ≤ 52`. -/
theorem roundB64_int (b n : Int) (hb : 0 < b) (h1 : 1 ≤ n) (h53 : n < 2 ^ 53) :
    ∃ j : Nat, j ≤ 52 ∧ roundB64 (b * n) b = ⟨n * 2 ^ j, -(j : Int)⟩ := by
  have hbn : 0 < b * n := mul_pos hb (by omega)
  have hNa := nlog2_spec (b * n).toNat (by omega)
  have hNb := nlog2_spec b.toNat (by omega)
  have hcastA : ((b * n).toNat : Int) = b * n := Int.toNat_of_nonneg hbn.le
  have hcastB : (b.toNat : Int) = b := Int.toNat_of_nonneg hb.le
  have hA1 : (2 : Int) ^ nlog2 (b * n).toNat ≤ b * n := by
    have := hNa.1
    have h' : ((2 : Nat) ^ nlog2 (b * n).toNat : Int) ≤ ((b * n).toNat : Int) := by
      exact_mod_cast this
    rw [hcastA] at h'
    push_cast at h'
    exact h'
  have hA2 : b * n < (2 : Int) ^ (nlog2 (b * n).toNat + 1) := by
    have := hNa.2
    have h' : ((b * n).toNat : Int) < ((2 : Nat) ^ (nlog2 (b * n).toNat + 1) : Int) := by
      exact_mod_cast this
    rw [hcastA] at h'
    push_cast at h'
    exact h'
  have hB1 : (2 : Int) ^ nlog2 b.toNat ≤ b := by
    have := hNb.1
    have h' : ((2 : Nat) ^ nlog2 b.toNat : Int) ≤ (b.toNat : Int) := by
      exact_mod_cast this
    rw [hcastB] at h'
    push_cast at h'
    exact h'
  have hB2 : b < (2 : Int) ^ (nlog2 b.toNat + 1) := by
    have := hNb.2
    have h' : (b.toNat : Int) < ((2 : Nat) ^ (nlog2 b.toNat + 1) : Int) := by
      exact_mod_cast this
    rw [hcastB] at h'
    push_cast at h'
    exact h'
  set la := nlog2 (b * n).toNat with hladef
  set lb := nlog2 b.toNat with hlbdef
  have hle : lb ≤ la := by
    by_contra hcon
    push_neg at hcon
    have hp : (2 : Int) ^ (la + 1) ≤ 2 ^ lb := pow_le_pow_right₀ (by norm_num) (by omega)
    have hlt : b * n < b := lt_of_lt_of_le hA2 (le_trans hp hB1)
    nlinarith
  have hup : la ≤ lb + 53 := by
    by_contra hcon
    push_neg at hcon
    have hp : (2 : Int) ^ (lb + 54) ≤ 2 ^ la := pow_le_pow_right₀ (by norm_num) (by omega)
    have h3 : b * n < 2 ^ (lb + 1) * 2 ^ 53 := by
      have e1 : b * n < 2 ^ (lb + 1) * n := by nlinarith
      have e2 : (2 : Int) ^ (lb + 1) * n < 2 ^ (lb + 1) * 2 ^ 53 := by
        have : (0 : Int) < 2 ^ (lb + 1) := pow_pos (by norm_num) _
        nlinarith
      omega
    rw [← pow_add] at h3
    have : lb + 1 + 53 = lb + 54 := by omega
    rw [this] at h3
    linarith
  have h0 : ¬ (b * n = 0) := by omega
  have hneg : ¬ (b * n < 0) := by omega
  have hk0 : (0 : Int) ≤ (la : Int) - (lb : Int) := by
    have := hle
    omega
  have hktoNat : ((la : Int) - (lb : Int)).toNat = la - lb := by omega
  simp only [roundB64, h0, hneg, if_false, ite_false, ← hladef, ← hlbdef]
  rw [le_pow2_div, if_pos hk0, hktoNat]
  simp only [decide_eq_true_eq]
  by_cases hcond : b * (2 : Int) ^ (la - lb) ≤ b * n
  · have hn2 : (2 : Int) ^ (la - lb) ≤ n := le_of_mul_le_mul_left hcond hb
    have hkt : la - lb ≤ 52 := by
      by_contra hcon
      push_neg at hcon
      have hp : (2 : Int) ^ 53 ≤ 2 ^ (la - lb) :=
        pow_le_pow_right₀ (by norm_num) (by omega)
      linarith
    refine ⟨(52 - ((la : Int) - lb)).toNat, by omega, ?_⟩
    have hj0 : (0 : Int) ≤ 52 - ((la : Int) - (lb : Int)) := by omega
    rw [if_pos hcond, if_pos hj0]
    have hm : b * n * (2 : Int) ^ (52 - ((la : Int) - lb)).toNat
        = b * (n * 2 ^ (52 - ((la : Int) - lb)).toNat) := by ring
    rw [hm, rnearest_exact _ b hb]
    have hexp : (la : Int) - (lb : Int) - 52 = -(((52 - ((la : Int) - lb)).toNat : Int)) := by
      omega
    rw [hexp]
  · have hn2 : n < (2 : Int) ^ (la - lb) := by
      push_neg at hcond
      exact lt_of_mul_lt_mul_left hcond hb.le
    have hkt1 : 1 ≤ la - lb := by
      by_contra hcon
      push_neg at hcon
      have hz : la - lb = 0 := by omega
      rw [hz] at hn2
      simp at hn2
      omega
    refine ⟨(52 - ((la : Int) - lb - 1)).toNat, by omega, ?_⟩
    have hj0 : (0 : Int) ≤ 52 - ((la : Int) - (lb : Int) - 1) := by omega
    rw [if_neg hcond, if_pos hj0]
    have hm : b * n * (2 : Int) ^ (52 - ((la : Int) - lb - 1)).toNat
        = b * (n * 2 ^ (52 - ((la : Int) - lb - 1)).toNat) := by ring
    rw [hm, rnearest_exact _ b hb]
    have hexp : (la : Int) - (lb : Int) - 1 - 52
        = -(((52 - ((la : Int) - lb - 1)).toNat : Int)) := by
      omega
    rw [hexp]

/-- Exactness of `roundDyadic` on dyadic inputs whose value is an integer
in `[1, 2 ^ 53)`. -/
theorem roundDyadic_int (v E : Int) (hE : E ≤ 0) (h1 : 1 ≤ v) (h53 : v < 2 ^ 53) :
    ∃ j : Nat, j ≤ 52 ∧ roundDyadic (v * 2 ^ (-E).toNat) E = ⟨v * 2 ^ j, -(j : Int)⟩ := by
  rcases eq_or_lt_of_le hE with hE0 | hElt
  · subst hE0
    simp only [roundDyadic, le_refl, if_pos]
    have h' : v * (2 : Int) ^ (-(0 : Int)).toNat * 2 ^ (0 : Int).toNat = 1 * v := by
      norm_num
    rw [h']
    exact roundB64_int 1 v (by norm_num) h1 h53
  · have hEneg : ¬ (0 : Int) ≤ E := by omega
    simp only [roundDyadic, hEneg, if_false, ite_false]
    have hbpos : (0 : Int) < 2 ^ (-E).toNat := pow_pos (by norm_num) _
    have h' : v * (2 : Int) ^ (-E).toNat = 2 ^ (-E).toNat * v := by ring
    rw [h']
    exact roundB64_int _ v hbpos h1 h53

/-- Python float multiplication is exact on products of exactly-represented
integers whose product stays below `2 ^ 53`. -/
theorem pyMul_int (c n : Int) (jc jn : Nat) (hc : 1 ≤ c) (hn : 1 ≤ n)
    (h53 : c * n < 2 ^ 53) :
    ∃ j : Nat, j ≤ 52 ∧
      pyMul ⟨c * 2 ^ jc, -(jc : Int)⟩ ⟨n * 2 ^ jn, -(jn : Int)⟩
        = ⟨c * n * 2 ^ j, -(j : Int)⟩ := by
  have hm : c * 2 ^ jc * (n * 2 ^ jn)
      = c * n * 2 ^ (-(-(jc : Int) + -(jn : Int))).toNat := by
    have ht : (-(-(jc : Int) + -(jn : Int))).toNat = jc + jn := by omega
    rw [ht, pow_add]
    ring
  have hE : -(jc : Int) + -(jn : Int) ≤ 0 := by omega
  simp only [pyMul]
  rw [hm]
  exact roundDyadic_int (c * n) _ hE (by nlinarith) h53

/-- Truncation of an exactly-represented non-negative integer. -/
theorem pyInt_int (v : Int) (j : Nat) (hv : 0 ≤ v) :
    pyInt ⟨v * 2 ^ j, -(j : Int)⟩ = v := by
  cases j with
  | zero =>
    simp [pyInt]
  | succ j =>
    have hneg : ¬ (0 : Int) ≤ -((j + 1 : Nat) : Int) := by omega
    have ht : (-(-((j + 1 : Nat) : Int))).toNat = j + 1 := by omega
    have hmnn : (0 : Int) ≤ v * 2 ^ (j + 1) :=
      mul_nonneg hv (by positivity)
    simp only [pyInt, hneg, if_false, ite_false, ht, hmnn, if_pos]
    exact Int.mul_fdiv_cancel v (by positivity)

/-- One rescaled coordinate is exact when the scale factor is the integer
`kw = W / 640`, `W` a multiple of 640: the whole float pipeline
`int(c * (W / 640))` returns `c * kw`. -/
theorem rescale_exact (c kw : Int) (hc0 : 0 ≤ c) (hc : c ≤ 640)
    (hk1 : 1 ≤ kw) (hk : kw ≤ 2 ^ 43) :
    pyInt (pyMul (pyFloat c) (roundB64 (640 * kw) 640)) = c * kw := by
  have hk53 : kw < 2 ^ 53 := by
    have : (2 : Int) ^ 43 < 2 ^ 53 := by norm_num
    omega
  obtain ⟨j, hj, hs⟩ := roundB64_int 640 kw (by norm_num) hk1 hk53
  rw [hs]
  rcases eq_or_lt_of_le hc0 with hc0' | hc0'
  · have hc0'' : c = 0 := hc0'.symm
    subst hc0''
    have hf : pyFloat 0 = ⟨0, 0⟩ := by
      simp [pyFloat, roundB64]
    rw [hf]
    have hmul : pyMul ⟨0, 0⟩ ⟨kw * 2 ^ j, -(j : Int)⟩ = ⟨0, 0⟩ := by
      simp [pyMul, roundDyadic, roundB64]
    rw [hmul]
    simp [pyInt]
  · have hc53 : c < 2 ^ 53 := by
      have : (640 : Int) < 2 ^ 53 := by norm_num
      omega
    obtain ⟨jc, hjc, hcf⟩ := roundB64_int 1 c (by norm_num) hc0' hc53
    rw [one_mul] at hcf
    have hckw : c * kw < 2 ^ 53 := by
      have e1 : c * kw ≤ 640 * kw := mul_le_mul_of_nonneg_right hc (by omega)
      have e2 : (640 : Int) * kw ≤ 640 * 2 ^ 43 := by nlinarith
      have e3 : (640 : Int) * 2 ^ 43 < 2 ^ 53 := by norm_num
      omega
    obtain ⟨j2, hj2, hmul⟩ := pyMul_int c kw jc j hc0' hk1 hckw
    rw [pyFloat, hcf, hmul]
    exact pyInt_int (c * kw) j2 (by positivity)

/-- C6 counterexample: the rescale is computed in binary64 float
arithmetic, not in exact arithmetic.  For an origin frame of width and
height 112 and the box (360,360,360,360) in 640×640 space, the code
returns 62 for every coordinate although
floor(360·112/640) = floor(63) = 63: the double nearest to 112/640 lies
below the exact ratio and the rounded product 360 · fl(112/640) falls just
below 63, which `int(...)` truncates to 62. -/
theorem C6_float_rescale_counterexample :
    scale_coordinates (ImageVal.frame 0 112 112) [⟨360, 360, 360, 360⟩]
      = [⟨62, 62, 62, 62⟩]
    ∧ ((360 * 112 : Int)).fdiv 640 = 63 := by
  decide

/-- C6 amended: the rescaled box equals
(floor(x1·W/640), floor(y1·H/640), floor(x2·W/640), floor(y2·H/640)) —
with truncation toward zero agreeing with floor on these non-negative
values — whenever the scale ratios are exact, in particular whenever W and
H are multiples of 640 (here with the quotients bounded by 2^43 so that
every float product stays below 2^53); for general W, H the binary64
rounding can make the result differ from the floor formula. -/
theorem C6_rescale_exact_for_multiple_sizes (frame : ImageVal) (kw kh : Int)
    (hw : (frame.width : Int) = 640 * kw) (hh : (frame.height : Int) = 640 * kh)
    (hkw1 : 1 ≤ kw) (hkw2 : kw ≤ 2 ^ 43) (hkh1 : 1 ≤ kh) (hkh2 : kh ≤ 2 ^ 43)
    (boxes : List Box4)
    (hbox : ∀ b ∈ boxes,
      0 ≤ b.x1 ∧ b.x1 ≤ 640 ∧ 0 ≤ b.y1 ∧ b.y1 ≤ 640
      ∧ 0 ≤ b.x2 ∧ b.x2 ≤ 640 ∧ 0 ≤ b.y2 ∧ b.y2 ≤ 640) :
    scale_coordinates frame boxes
      = boxes.map fun b =>
          { x1 := (b.x1 * (frame.width : Int)).fdiv 640
            y1 := (b.y1 * (frame.height : Int)).fdiv 640
            x2 := (b.x2 * (frame.width : Int)).fdiv 640
            y2 := (b.y2 * (frame.height : Int)).fdiv 640 } := by
  have hfdiv : ∀ c k : Int, (c * (640 * k)).fdiv 640 = c * k := by
    intro c k
    have h : c * (640 * k) = 640 * (c * k) := by ring
    rw [h]
    exact Int.mul_fdiv_cancel_left (c * k) (by norm_num)
  simp only [scale_coordinates, hw, hh]
  refine List.map_congr_left ?_
  intro b hb
  obtain ⟨h1, h2, h3, h4, h5, h6, h7, h8⟩ := hbox b hb
  have e1 := rescale_exact b.x1 kw h1 h2 hkw1 hkw2
  have e2 := rescale_exact b.y1 kh h3 h4 hkh1 hkh2
  have e3 := rescale_exact b.x2 kw h5 h6 hkw1 hkw2
  have e4 := rescale_exact b.y2 kh h7 h8 hkh1 hkh2
  simp only [e1, e2, e3, e4, hfdiv]

/-- Witness for `C6_rescale_exact_for_multiple_sizes`: a 1280×1280 origin
frame (kw = kh = 2) rescales (0,0,640,640) to the exact floor values
(0,0,1280,1280). -/
theorem C6_rescale_exact_witness :
    scale_coordinates (ImageVal.frame 0 1280 1280) [⟨0, 0, 640, 640⟩]
      = [⟨0, 0, 1280, 1280⟩] := by
  have h := C6_rescale_exact_for_multiple_sizes (ImageVal.frame 0 1280 1280) 2 2
    (by decide) (by decide) (by decide) (by decide) (by decide) (by decide)
    [⟨0, 0, 640, 640⟩] (by decide)
  rw [h]
  decide

/-- C7: setInterval with seconds < 1 is rejected — the controller logs the
invalid-argument error and returns with the stored interval unchanged —
while seconds ≥ 1 updates the shared interval, which the capture-loop tick
guard (re-reading the shared state) observes on its next tick. -/
theorem C7_set_save_interval_validation (s : ControllerState) (i now last : Int) :
    (i < 1 → set_save_interval s i = (s, SetIntervalOutcome.invalidArgument))
    ∧ (1 ≤ i →
        set_save_interval s i
          = ({ s with save_interval := i }, SetIntervalOutcome.updated)
        ∧ capture_due (set_save_interval s i).1 now last = decide (i ≤ now - last)) := by
  constructor
  · intro h
    simp [set_save_interval, h]
  · intro h
    have h' : ¬ i < 1 := by omega
    exact ⟨by simp [set_save_interval, h'], by simp [set_save_interval, capture_due, h']⟩

/-- Witness for `C7_set_save_interval_validation`: setInterval(0) and
setInterval(-5) are rejected leaving the interval unchanged;
setInterval(15) updates it. -/
theorem C7_set_save_interval_witness :
    set_save_interval (init_state 300) 0
      = (init_state 300, SetIntervalOutcome.invalidArgument)
    ∧ set_save_interval (init_state 300) (-5)
      = (init_state 300, SetIntervalOutcome.invalidArgument)
    ∧ set_save_interval (init_state 300) 15
      = ({ init_state 300 with save_interval := 15 }, SetIntervalOutcome.updated) :=
  ⟨(C7_set_save_interval_validation (init_state 300) 0 0 0).1 (by decide),
   (C7_set_save_interval_validation (init_state 300) (-5) 0 0).1 (by decide),
   ((C7_set_save_interval_validation (init_state 300) 15 0 0).2 (by decide)).1⟩

/-- C8: an alert call (entry into send_detection_alert) occurs on a
processed frame exactly when the armed flag is true and the boxes list is
non-empty; the image write and the detection record are emitted in every
case, in particular when the system is disarmed. -/
theorem C8_alert_iff_armed_and_nonempty (armed dir_exists loop_closed : Bool)
    (ci now : Nat) (frame : ImageVal) (boxes : List Box4) :
    ((save_image armed dir_exists loop_closed ci now frame boxes).any isAlertPath
        = (armed && !boxes.isEmpty))
    ∧ SinkEvent.imwrite
        (save_path ++ "/cam_" ++ toString ci ++ "/" ++ (toString now ++ ".jpg")) frame
        ∈ save_image armed dir_exists loop_closed ci now frame boxes
    ∧ SinkEvent.csvAppend (save_path ++ "/detections_" ++ toString ci ++ ".csv")
        (toString now ++ ".jpg") boxes
        ∈ save_image armed dir_exists loop_closed ci now frame boxes := by
  refine ⟨?_, ?_, ?_⟩ <;>
    cases armed <;> cases dir_exists <;> cases loop_closed <;> cases boxes <;>
      simp [save_image, send_detection_alert, write_detection_record, isAlertPath]

/-- C9 counterexample: arm_system, disarm_system and is_capturing touch the
shared capture state (armed flag, capturing flag) without holding the
state lock, refuting the claim that every such access of the six public
control operations happens under the lock. -/
theorem C9_arm_disarm_is_capturing_unlocked :
    FieldAccess.mk StateField.armedField true false ∈ arm_system_accesses
    ∧ ((arm_system_accesses ++ disarm_system_accesses ++ is_capturing_accesses).all
        fun a => a.underLock) = false := by
  decide

/-- C9 amended: start, stop and the interval write of setInterval perform
all of their shared-state accesses under the state lock, while arm_system,
disarm_system and is_capturing access the shared state without acquiring
it. -/
theorem C9_lock_discipline (b1 b2 : Bool) (i : Int) :
    ((start_capture_accesses b1 ++ stop_capture_accesses b2
        ++ set_save_interval_accesses i).all fun a => a.underLock) = true
    ∧ ((arm_system_accesses ++ disarm_system_accesses ++ is_capturing_accesses).all
        fun a => !a.underLock) = true := by
  constructor
  · cases b1 <;> cases b2 <;> by_cases hi : i < 1 <;>
      simp [start_capture_accesses, stop_capture_accesses, set_save_interval_accesses, hi]
  · decide

/-- C10: any non-success detector response (raised transport error, or
non-2xx status raised by `raise_for_status`) is caught and turned into an
empty box list, and the detection loop then continues with the next queued
item exactly as for any other frame — a failing detector call never
terminates the loop. -/
theorem C10_detector_failure_absorbed (st : Nat) (armed dir_exists loop_closed : Bool)
    (now ci : Nat) (frame : ImageVal)
    (rest : List (Option (Nat × ImageVal × DetectorResponse))) :
    send_image_for_detection (DetectorResponse.httpError st) = []
    ∧ send_image_for_detection DetectorResponse.transportError = []
    ∧ run_detection_events armed dir_exists loop_closed now
        (some (ci, frame, DetectorResponse.transportError) :: rest)
        = save_image armed dir_exists loop_closed ci now frame []
            ++ run_detection_events armed dir_exists loop_closed now rest
    ∧ run_detection_events armed dir_exists loop_closed now
        (some (ci, frame, DetectorResponse.httpError st) :: rest)
        = save_image armed dir_exists loop_closed ci now frame []
            ++ run_detection_events armed dir_exists loop_closed now rest := by
  refine ⟨rfl, rfl, ?_, ?_⟩ <;>
    simp [run_detection_events, process_frame, send_image_for_detection]
